import Mathlib

set_option maxRecDepth 8000

/-!
Verification of the kubegems release-1.23 alert-rule migration script
(`scripts/release-1.23-update/migrate-alertrule.go`) and the generated
deep-copy functions (`pkg/apis/plugins/v1beta1/zz_generated.deepcopy.go`).

Go strings are modelled as Lean `String`; Go slices as `List`; Go maps as
association lists (`List (k × v)`) looked up front-to-back; nil-able Go
pointers and slices as `Option`.  Functions declared in the repository but
outside the provided sources (the canonical-name validator, the environment
lookup table type) are modelled from the specification and say so in their
doc comments.
-/

namespace KubegemsMigration

/-! ## Go string helpers -/

/-- Byte count of one character under UTF-8, as MySQL `length()` counts it. -/
def charUtf8Size (c : Char) : Nat :=
  if c.toNat < 0x80 then 1
  else if c.toNat < 0x800 then 2
  else if c.toNat < 0x10000 then 3
  else 4

/-- UTF-8 byte length of a string (MySQL `length(name)`). -/
def utf8Length (s : String) : Nat :=
  s.data.foldl (fun n c => n + charUtf8Size c) 0

/-- `strings.Contains(s, <one-character needle>)`, specialised to a single
character needle as the script only ever searches for `"|"`. -/
def containsChar (s : String) (c : Char) : Bool :=
  s.data.contains c

/-- UTF-8 encoding of one character into bytes. -/
def charUtf8Bytes (c : Char) : List Nat :=
  let n := c.toNat
  if n < 0x80 then [n]
  else if n < 0x800 then [0xC0 + n / 0x40, 0x80 + n % 0x40]
  else if n < 0x10000 then
    [0xE0 + n / 0x1000, 0x80 + (n / 0x40) % 0x40, 0x80 + n % 0x40]
  else
    [0xF0 + n / 0x40000, 0x80 + (n / 0x1000) % 0x40,
     0x80 + (n / 0x40) % 0x40, 0x80 + n % 0x40]

/-- UTF-8 encoding of a string into bytes. -/
def strUtf8Bytes (s : String) : List Nat :=
  s.data.foldr (fun c acc => charUtf8Bytes c ++ acc) []

/-- First-match association-list lookup: the model of Go map indexing
(`m[k]`), keys being unique in a Go map. -/
def assocLookup {α β : Type} [DecidableEq α] (m : List (α × β)) (k : α) : Option β :=
  match m with
  | [] => none
  | (k', v) :: rest => if k' = k then some v else assocLookup rest k

/-! ## The label-matcher derivation (`matchType`, migrate-alertrule.go:217) -/

/-- `promql.MatchType` (external promql package): the four matcher kinds. -/
inductive MatchType where
  | matchEqual
  | matchNotEqual
  | matchRegexp
  | matchNotRegexp
deriving DecidableEq

/-- `matchType` from migrate-alertrule.go: regex match when the value
contains `"|"`, exact match otherwise. -/
def matchType (value : String) : MatchType :=
  if containsChar value '|' then MatchType.matchRegexp else MatchType.matchEqual

/-! ## Data model of the rules

`models.AlertRule` and the `observe` legacy rule types are declared in the
repository outside the provided sources; their fields are modelled from
their use in migrate-alertrule.go and from the spec's data-model section
(legacy rule / canonical rule). -/

/-- One severity level of a rule (`CompareOp`, `CompareValue`, `Severity`). -/
structure AlertLevel where
  CompareOp : String := ""
  CompareValue : String := ""
  Severity : String := ""
deriving DecidableEq

/-- A notification channel referenced by a legacy receiver (only the `ID`
is read by the converter). -/
structure AlertChannelRef where
  ID : Nat := 0
deriving DecidableEq

/-- A legacy receiver binding: channel reference plus repeat interval. -/
structure ObserveReceiver where
  AlertChannel : AlertChannelRef := {}
  Interval : String := ""
deriving DecidableEq

/-- A canonical receiver record: channel id plus repeat interval. -/
structure AlertReceiver where
  AlertChannelID : Nat := 0
  Interval : String := ""
deriving DecidableEq

/-- A typed label matcher (`promql.LabelMatcher`).  The source field `Type`
is spelt `type` here because `Type` is reserved in Lean. -/
structure LabelMatcher where
  type : MatchType := MatchType.matchEqual
  Name : String := ""
  Value : String := ""
deriving DecidableEq

/-- Legacy metric-query generator descriptor.  `LabelPairs` is a Go map
`map[string]string`; it is modelled as the list of key/value pairs in one
iteration order (Go map iteration order is unspecified). -/
structure ObservePromqlGenerator where
  Scope : String := ""
  Resource : String := ""
  Rule : String := ""
  Unit : String := ""
  LabelPairs : List (String × String) := []
deriving DecidableEq

/-- Canonical metric-query generator (`models.PromqlGenerator`). -/
structure PromqlGenerator where
  Scope : String := ""
  Resource : String := ""
  Rule : String := ""
  Unit : String := ""
  LabelMatchers : List LabelMatcher := []
deriving DecidableEq

/-- Legacy log-query generator descriptor. -/
structure ObserveLogqlGenerator where
  Duration : String := ""
  Match : String := ""
  LabelPairs : List (String × String) := []
deriving DecidableEq

/-- Canonical log-query generator (`models.LogqlGenerator`). -/
structure LogqlGenerator where
  Duration : String := ""
  Match : String := ""
  LabelMatchers : List LabelMatcher := []
deriving DecidableEq

/-- The alert type tag: `prometheus.AlertTypeMonitor` / `AlertTypeLogging`. -/
inductive AlertType where
  | monitor
  | logging
deriving DecidableEq

/-- `observe.MonitorAlertRule`: the legacy monitor rule as read by the
converter. -/
structure MonitorAlertRule where
  Namespace : String := ""
  Name : String := ""
  Expr : String := ""
  Message : String := ""
  For : String := ""
  InhibitLabels : List String := []
  IsOpen : Bool := false
  AlertLevels : List AlertLevel := []
  Receivers : List ObserveReceiver := []
  PromqlGenerator : Option ObservePromqlGenerator := none
  ChannelStatus : Int := 0
deriving DecidableEq

/-- `observe.LoggingAlertRule`: the legacy logging rule as read by the
converter. -/
structure LoggingAlertRule where
  Namespace : String := ""
  Name : String := ""
  Expr : String := ""
  Message : String := ""
  For : String := ""
  InhibitLabels : List String := []
  IsOpen : Bool := false
  AlertLevels : List AlertLevel := []
  Receivers : List ObserveReceiver := []
  LogqlGenerator : Option ObserveLogqlGenerator := none
  ChannelStatus : Int := 0
deriving DecidableEq

/-- `models.AlertRule`: the persisted canonical rule. -/
structure AlertRule where
  Cluster : String := ""
  Namespace : String := ""
  Name : String := ""
  AlertType : AlertType := AlertType.monitor
  Expr : String := ""
  Message : String := ""
  For : String := ""
  InhibitLabels : List String := []
  IsOpen : Bool := false
  AlertLevels : List AlertLevel := []
  Receivers : List AlertReceiver := []
  PromqlGenerator : Option PromqlGenerator := none
  LogqlGenerator : Option LogqlGenerator := none
deriving DecidableEq

/-! ## The converters (migrate-alertrule.go:224 and :270) -/

/-- The 1:1 severity-level mapping done by both converters' first loop. -/
def convertLevel (level : AlertLevel) : AlertLevel :=
  { CompareOp := level.CompareOp
    CompareValue := level.CompareValue
    Severity := level.Severity }

/-- The 1:1 receiver mapping done by both converters' second loop. -/
def convertReceiver (r : ObserveReceiver) : AlertReceiver :=
  { AlertChannelID := r.AlertChannel.ID
    Interval := r.Interval }

/-- Label-pair list to label-matcher list, as both converters' inner loop. -/
def convertLabelPairs (pairs : List (String × String)) : List LabelMatcher :=
  pairs.map (fun kv => { type := matchType kv.2, Name := kv.1, Value := kv.2 })

/-- `convertMonitorAlertRule` from migrate-alertrule.go. -/
def convertMonitorAlertRule (cluster : String) (monitorRule : MonitorAlertRule) : AlertRule :=
  { Cluster := cluster
    Namespace := monitorRule.Namespace
    Name := monitorRule.Name
    AlertType := AlertType.monitor
    Expr := monitorRule.Expr
    Message := monitorRule.Message
    For := monitorRule.For
    InhibitLabels := monitorRule.InhibitLabels
    IsOpen := monitorRule.IsOpen
    AlertLevels := monitorRule.AlertLevels.map convertLevel
    Receivers := monitorRule.Receivers.map convertReceiver
    PromqlGenerator := monitorRule.PromqlGenerator.map (fun g =>
      { Scope := g.Scope
        Resource := g.Resource
        Rule := g.Rule
        Unit := g.Unit
        LabelMatchers := convertLabelPairs g.LabelPairs })
    LogqlGenerator := none }

/-- `convertLoggingAlertRule` from migrate-alertrule.go. -/
def convertLoggingAlertRule (cluster : String) (loggingRule : LoggingAlertRule) : AlertRule :=
  { Cluster := cluster
    Namespace := loggingRule.Namespace
    Name := loggingRule.Name
    AlertType := AlertType.logging
    Expr := loggingRule.Expr
    Message := loggingRule.Message
    For := loggingRule.For
    InhibitLabels := loggingRule.InhibitLabels
    IsOpen := loggingRule.IsOpen
    AlertLevels := loggingRule.AlertLevels.map convertLevel
    Receivers := loggingRule.Receivers.map convertReceiver
    PromqlGenerator := none
    LogqlGenerator := loggingRule.LogqlGenerator.map (fun g =>
      { Duration := g.Duration
        Match := g.Match
        LabelMatchers := convertLabelPairs g.LabelPairs })
  }

/-! ## Name Normalizer Phase A (`updateAlertNameMapInFile`, migrate-alertrule.go:80)

The SQL discovery query selects rules whose name has a byte length different
from its character length or contains a space; the discovered names are then
merged into the override map read from the file: inserted with value `""`
when absent, existing entries left untouched.  The merged map is then
rewritten to the file (full rewrite via `os.WriteFile`). -/

/-- The discovery predicate of the SQL query
`length(name) != char_length(name) or name like "% %"`. -/
def isNonCanonicalName (n : String) : Bool :=
  decide (utf8Length n ≠ n.length) || containsChar n ' '

/-- The merge loop of Phase A: insert each discovered name with an empty
value when absent, never overwriting an existing entry. -/
def mergeAlertNames (alertNameMap : List (String × String)) (oldnames : List String) :
    List (String × String) :=
  oldnames.foldl
    (fun acc v => if (assocLookup acc v).isSome then acc else acc ++ [(v, "")])
    alertNameMap

/-- `updateAlertNameMapInFile`, as a function from the decoded override map
and the persisted rule names to the override map written back. -/
def updateAlertNameMapInFile (alertNameMap : List (String × String))
    (ruleNames : List String) : List (String × String) :=
  mergeAlertNames alertNameMap (ruleNames.filter isNonCanonicalName)

/-! ## Name Normalizer Phase B (`updateAlertRuleNameInDB`, migrate-alertrule.go:112) -/

/-- Modelled from the spec: slugification to kebab-case.  The source calls
`strcase.KebabCase` from the external go-strcase library (not part of this
repository); per the spec a slug contains only lowercase letters, digits and
hyphens, so: delimiters (space, underscore, dot, hyphen) become hyphens,
letters are lowercased, and a hyphen is inserted at a lower-to-upper case
boundary (so `"Foo Bar"` becomes `"foo-bar"`). -/
def kebabCase (s : String) : String :=
  let step := fun (acc : List Char × Option Char) (c : Char) =>
    let out := acc.1
    let prev := acc.2
    if c = ' ' || c = '_' || c = '.' || c = '-' then (out ++ ['-'], some c)
    else if c.isUpper then
      let boundary := match prev with
        | some p => p.isLower
        | none => false
      (out ++ (if boundary then ['-', c.toLower] else [c.toLower]), some c)
    else (out ++ [c.toLower], some c)
  ((s.data.foldl step ([], none)).1).asString

/-- Modelled from the spec: the canonical-name grammar check
`models.IsValidAlertRuleName` (declared in `pkg/service/models`, outside the
provided sources).  Per the spec's glossary a canonical name is a slug:
only lowercase letters, digits, and hyphens. -/
def isValidAlertRuleName (s : String) : Bool :=
  s.data.all (fun c => c.isLower || c.isDigit || c = '-')

/-- `database.EnvInfo` (declared outside the provided sources): the location
metadata row of the environment-resolution table, fields as read by the
audit-record construction in migrate-alertrule.go:140. -/
structure EnvInfo where
  ClusterName : String := ""
  Namespace : String := ""
  TenantName : String := ""
  ProjectName : String := ""
  EnvironmentName : String := ""
deriving DecidableEq

/-- Go map indexing `envinfo[key]`: the zero value when the key is absent. -/
def envLookup (envinfo : List (String × EnvInfo)) (k : String) : EnvInfo :=
  match assocLookup envinfo k with
  | some info => info
  | none => {}

/-- The new-name computation of Phase B (migrate-alertrule.go:132-135): the
override-map entry whenever the old name is PRESENT as a key (even with an
empty value), and kebab-case slugification only when the key is absent.
`kebab` stands for the external `strcase.KebabCase`. -/
def computeNewName (alertNameMap : List (String × String)) (kebab : String → String)
    (name : String) : String :=
  match assocLookup alertNameMap name with
  | some newname => newname
  | none => kebab name

/-- The per-rule persistence step: the rule with its name updated when the
computed new name differs (migrate-alertrule.go:146-151). -/
def applyRename (alertNameMap : List (String × String)) (kebab : String → String)
    (v : AlertRule) : AlertRule :=
  let newname := computeNewName alertNameMap kebab v.Name
  if v.Name ≠ newname then { v with Name := newname } else v

/-- The audit record built for one rule (migrate-alertrule.go:140-144):
old name, new name, then the location metadata resolved from the
environment table keyed by `cluster/namespace` (zero value when absent). -/
def auditRecord (alertNameMap : List (String × String)) (kebab : String → String)
    (envinfo : List (String × EnvInfo)) (v : AlertRule) : List String :=
  let newname := computeNewName alertNameMap kebab v.Name
  let info := envLookup envinfo (v.Cluster ++ "/" ++ v.Namespace)
  [v.Name, newname, info.ClusterName, info.Namespace,
   info.TenantName, info.ProjectName, info.EnvironmentName]

/-- The Phase B loop over the fetched rules (migrate-alertrule.go:131-152).
Returns the persisted rules (updated up to the point reached), the audit
records accumulated in memory, and the invalid name on which validation
aborted, if any.  On a validation failure the loop returns at once: the
failing rule and all later rules are left untouched. -/
def phaseBLoop (alertNameMap : List (String × String)) (kebab : String → String)
    (envinfo : List (String × EnvInfo)) :
    List AlertRule → List AlertRule × List (List String) × Option String
  | [] => ([], [], none)
  | v :: rest =>
    let newname := computeNewName alertNameMap kebab v.Name
    if isValidAlertRuleName newname then
      let r := phaseBLoop alertNameMap kebab envinfo rest
      (applyRename alertNameMap kebab v :: r.1,
       auditRecord alertNameMap kebab envinfo v :: r.2.1,
       r.2.2)
    else
      (v :: rest, [], some newname)

/-! ### The audit file write (migrate-alertrule.go:154-159)

The audit file is opened with `os.O_CREATE|os.O_RDWR` — note: WITHOUT
`os.O_TRUNC` — so writing starts at offset 0 of the existing content and any
bytes of a longer pre-existing file beyond the written length survive.  The
CSV encoding utility (Go `encoding/csv`) is an external collaborator
excluded by the spec; it is modelled from the spec as comma-joined fields
with standard quoting and a newline terminator per record. -/

/-- The byte-order-marker preamble written first (migrate-alertrule.go:156). -/
def bomBytes : List Nat := [0xEF, 0xBB, 0xBF]

/-- The header row written before the records (migrate-alertrule.go:158). -/
def auditHeader : List String :=
  ["oldname", "newname", "cluster", "namespace",
   "tenant_name", "project_name", "environment_name"]

/-- Modelled from the spec: whether a CSV field must be quoted (it contains
a comma, a quote, or a line break). -/
def csvFieldNeedsQuoting (f : String) : Bool :=
  f.data.any (fun c => c = ',' || c = '"' || c = '\r' || c = '\n')

/-- Modelled from the spec: one encoded CSV field (quotes doubled when the
field is quoted). -/
def csvField (f : String) : String :=
  if csvFieldNeedsQuoting f then
    ('"' :: f.data.foldr (fun c acc => if c = '"' then '"' :: '"' :: acc else c :: acc) ['"']).asString
  else f

/-- Modelled from the spec: one encoded CSV record, newline-terminated. -/
def csvRow (r : List String) : String :=
  String.intercalate "," (r.map csvField) ++ "\n"

/-- Modelled from the spec: the UTF-8 bytes of a sequence of CSV records. -/
def csvEncode (rows : List (List String)) : List Nat :=
  rows.foldr (fun r acc => strUtf8Bytes (csvRow r) ++ acc) []

/-- A write starting at offset 0 of a file NOT opened with truncation: the
new bytes overlay the old prefix and the old tail beyond them survives. -/
def overwriteFromStart (oldContent newBytes : List Nat) : List Nat :=
  newBytes ++ oldContent.drop newBytes.length

/-- The outcome of one Phase B run: the persisted rules, the in-memory
record list at return, the audit-file content after the run, and the
invalid name returned as the error, if any. -/
structure PhaseBOutcome where
  rules : List AlertRule
  records : List (List String)
  auditFile : List Nat
  err : Option String
deriving DecidableEq

/-- `updateAlertRuleNameInDB`, as a function from the decoded override map,
the fetched rules, the environment table and the previous audit-file bytes
to the outcome.  On validation failure the function returns the error
before the audit file is touched; on success it writes BOM, header and
records from offset 0 without truncating. -/
def updateAlertRuleNameInDB (alertNameMap : List (String × String))
    (kebab : String → String) (alertrules : List AlertRule)
    (envinfo : List (String × EnvInfo)) (oldAuditFile : List Nat) : PhaseBOutcome :=
  let r := phaseBLoop alertNameMap kebab envinfo alertrules
  match r.2.2 with
  | some e => { rules := r.1, records := r.2.1, auditFile := oldAuditFile, err := some e }
  | none =>
    { rules := r.1
      records := r.2.1
      auditFile := overwriteFromStart oldAuditFile (bomBytes ++ csvEncode (auditHeader :: r.2.1))
      err := none }

/-- The full audit bytes a Phase B run writes: BOM, header, records. -/
def auditBytes (records : List (List String)) : List Nat :=
  bomBytes ++ csvEncode (auditHeader :: records)

/-! ## Re-sync Driver (`syncAlertRules`, migrate-alertrule.go:197)

The driver loops over every persisted rule; per rule it resolves the owning
cluster's client (`cs.ClientOf`) — on failure it logs and `continue`s — and
otherwise invokes the rule processor's `SyncAlertRule`, logging success or
failure; the loop never aborts.  The client set and the processor are
external collaborators, passed in as `clientOf` and `syncOk`. -/

/-- What happened to one rule in the re-sync loop. -/
inductive SyncAction where
  | clientError
  | syncFailure
  | syncSuccess
deriving DecidableEq

/-- The body of the re-sync loop for one rule. -/
def syncStep {κ : Type} (clientOf : String → Option κ) (syncOk : κ → AlertRule → Bool)
    (v : AlertRule) : SyncAction :=
  match clientOf v.Cluster with
  | none => SyncAction.clientError
  | some cli => if syncOk cli v then SyncAction.syncSuccess else SyncAction.syncFailure

/-- `syncAlertRules`: every fetched rule is processed in order; a failed
cluster lookup yields `clientError` for that rule and the loop continues. -/
def syncAlertRules {κ : Type} (clientOf : String → Option κ)
    (syncOk : κ → AlertRule → Bool) (alertrules : List AlertRule) : List SyncAction :=
  alertrules.map (syncStep clientOf syncOk)

end KubegemsMigration

namespace KubegemsDeepCopy

/-!
## The generated deep-copy functions (`zz_generated.deepcopy.go`)

Slices keep an allocation identifier so that "newly allocated" is
expressible: a `GoSlice` is `none` (a nil slice) or `some (id, elems)`.
Copy functions thread a fresh-allocation counter `σ`; every id already in
use is assumed `< σ`.  Element types with no pointer fields (copied by Go
`copy`) keep their element list.  The struct field lists are modelled from
the deep-copy code itself (the type declarations live outside the provided
sources): fields copied by `*out = *in` appear as scalar fields. -/

/-- A Go slice with its allocation identity: `none` is the nil slice. -/
abbrev GoSlice (α : Type) : Type := Option (Nat × List α)

/-- The elements of a slice, allocation identity erased. -/
def sliceElems {α : Type} (s : GoSlice α) : Option (List α) := s.map (fun p => p.2)

/-- The allocation id of a slice, when it is non-nil. -/
def sliceId {α : Type} (s : GoSlice α) : Option Nat := s.map (fun p => p.1)

/-- `make([]T, len(*in))` followed by `copy`: a freshly allocated slice with
the same elements; nil stays nil and allocates nothing. -/
def copySliceAlloc {α : Type} (s : GoSlice α) (σ : Nat) : GoSlice α × Nat :=
  match s with
  | none => (none, σ)
  | some (_, xs) => (some (σ, xs), σ + 1)

/-- `k8s.io/api/core/v1.ObjectReference` (external): plain string fields,
copied elementwise by `copy`. -/
structure ObjectReference where
  Kind : String := ""
  Namespace : String := ""
  Name : String := ""
deriving DecidableEq

/-- `metav1.TypeMeta` (external): plain string fields, copied by `*out = *in`. -/
structure TypeMeta where
  Kind : String := ""
  APIVersion : String := ""
deriving DecidableEq

/-- `metav1.ObjectMeta` (external): its `DeepCopyInto` is external
apimachinery code; modelled with scalar fields only, so the external deep
copy is value-preserving. -/
structure ObjectMeta where
  Name : String := ""
  Namespace : String := ""
deriving DecidableEq

/-- `Values` (declared outside the provided sources): its `DeepCopyInto`
clones via its own `DeepCopy`; modelled as a scalar payload, so the clone is
value-preserving. -/
structure Values where
  Raw : String := ""
deriving DecidableEq

/-- `ValuesFrom` (fields outside the provided sources; copied elementwise by
`copy` in `PluginSpec.DeepCopyInto`, so it has no pointer fields). -/
structure ValuesFrom where
  Kind : String := ""
  Name : String := ""
  Optional : Bool := false
deriving DecidableEq

/-- `ManagedResource`: its generated `DeepCopyInto` is `*out = *in`, so it
has only scalar fields. -/
structure ManagedResource where
  APIVersion : String := ""
  Kind : String := ""
  Namespace : String := ""
  Name : String := ""
deriving DecidableEq

/-- `PluginSpec`: the two slice fields handled by its `DeepCopyInto`, the
`Values` field cloned by `Values.DeepCopyInto`, and scalar fields copied by
`*out = *in`. -/
structure PluginSpec where
  Kind : String := ""
  URL : String := ""
  Version : String := ""
  InstallNamespace : String := ""
  Dependencies : GoSlice ObjectReference := none
  Values : Values := {}
  ValuesFrom : GoSlice ValuesFrom := none
deriving DecidableEq

/-- `PluginStatus`: the slice field `Resources` handled by its
`DeepCopyInto`, timestamps (external `metav1.Time`, modelled as `Nat`), and
scalar fields copied by `*out = *in`. -/
structure PluginStatus where
  Phase : String := ""
  Message : String := ""
  Version : String := ""
  InstallNamespace : String := ""
  Values : Values := {}
  CreationTimestamp : Nat := 0
  UpgradeTimestamp : Nat := 0
  Resources : GoSlice ManagedResource := none
deriving DecidableEq

/-- `Plugin`: TypeMeta, ObjectMeta, Spec, Status (note: `Plugin` has no
`Items` field — `Items` belongs to `PluginList`). -/
structure Plugin where
  TypeMeta : TypeMeta := {}
  ObjectMeta : ObjectMeta := {}
  Spec : PluginSpec := {}
  Status : PluginStatus := {}
deriving DecidableEq

/-- `PluginSpec.DeepCopyInto`: `*out = *in`, then fresh `Dependencies`,
cloned `Values`, fresh `ValuesFrom`. -/
def PluginSpec.DeepCopyInto (spec : PluginSpec) (σ : Nat) : PluginSpec × Nat :=
  let d := copySliceAlloc spec.Dependencies σ
  let vf := copySliceAlloc spec.ValuesFrom d.2
  ({ spec with Dependencies := d.1, ValuesFrom := vf.1 }, vf.2)

/-- `PluginStatus.DeepCopyInto`: `*out = *in`, cloned `Values` and
timestamps, then fresh `Resources`. -/
def PluginStatus.DeepCopyInto (status : PluginStatus) (σ : Nat) : PluginStatus × Nat :=
  let r := copySliceAlloc status.Resources σ
  ({ status with Resources := r.1 }, r.2)

/-- `Plugin.DeepCopyInto`: copy `TypeMeta`, deep-copy `ObjectMeta`
(external, value-preserving), then `Spec` and `Status`. -/
def Plugin.DeepCopyInto (p : Plugin) (σ : Nat) : Plugin × Nat :=
  let s := PluginSpec.DeepCopyInto p.Spec σ
  let st := PluginStatus.DeepCopyInto p.Status s.2
  ({ TypeMeta := p.TypeMeta, ObjectMeta := p.ObjectMeta, Spec := s.1, Status := st.1 }, st.2)

/-- `Plugin.DeepCopy`: nil in, nil out; otherwise a new `Plugin` filled by
`DeepCopyInto`. -/
def Plugin.DeepCopy (p : Option Plugin) (σ : Nat) : Option Plugin × Nat :=
  match p with
  | none => (none, σ)
  | some q =>
    let r := Plugin.DeepCopyInto q σ
    (some r.1, r.2)

/-- All allocation ids used by a plugin's slices are below `σ`. -/
def idsBoundPlugin (p : Plugin) (σ : Nat) : Bool :=
  (match sliceId p.Spec.Dependencies with | some i => decide (i < σ) | none => true) &&
  (match sliceId p.Spec.ValuesFrom with | some i => decide (i < σ) | none => true) &&
  (match sliceId p.Status.Resources with | some i => decide (i < σ) | none => true)

/-- Structural (field-for-field, element-for-element) equality of two
plugins: every field equal, the slice fields compared on their elements
(allocation identity erased). -/
def Plugin.contentEq (a b : Plugin) : Bool :=
  a.TypeMeta = b.TypeMeta && a.ObjectMeta = b.ObjectMeta &&
  a.Spec.Kind = b.Spec.Kind && a.Spec.URL = b.Spec.URL &&
  a.Spec.Version = b.Spec.Version && a.Spec.InstallNamespace = b.Spec.InstallNamespace &&
  a.Spec.Values = b.Spec.Values &&
  sliceElems a.Spec.Dependencies = sliceElems b.Spec.Dependencies &&
  sliceElems a.Spec.ValuesFrom = sliceElems b.Spec.ValuesFrom &&
  a.Status.Phase = b.Status.Phase && a.Status.Message = b.Status.Message &&
  a.Status.Version = b.Status.Version &&
  a.Status.InstallNamespace = b.Status.InstallNamespace &&
  a.Status.Values = b.Status.Values &&
  a.Status.CreationTimestamp = b.Status.CreationTimestamp &&
  a.Status.UpgradeTimestamp = b.Status.UpgradeTimestamp &&
  sliceElems a.Status.Resources = sliceElems b.Status.Resources

/-- One slice of the copy is fresh with respect to the original and `σ`:
same nil-ness, same elements, and when non-nil its allocation id is new
(at least `σ`, hence different from the original's). -/
def freshSliceWrt {α : Type} [DecidableEq α] (orig copy : GoSlice α) (σ : Nat) : Bool :=
  sliceElems orig = sliceElems copy &&
  (match sliceId orig, sliceId copy with
   | none, none => true
   | some i, some i' => decide (σ ≤ i') && decide (i ≠ i')
   | _, _ => false)

/-- Every slice of the copy is freshly allocated with the original's
elements. -/
def freshCopy (orig copy : Plugin) (σ : Nat) : Bool :=
  freshSliceWrt orig.Spec.Dependencies copy.Spec.Dependencies σ &&
  freshSliceWrt orig.Spec.ValuesFrom copy.Spec.ValuesFrom σ &&
  freshSliceWrt orig.Status.Resources copy.Status.Resources σ

end KubegemsDeepCopy

namespace KubegemsMigration

/-! ## Theorems -/

/-- Membership form of `containsChar`. -/
theorem containsChar_iff_mem (s : String) (c : Char) :
    containsChar s c = true ↔ c ∈ s.data := by
  unfold containsChar List.contains
  exact List.elem_iff

/-- C5: for every string `v`, `matchType v` is the regex-equality match
type if and only if `v` contains the character `"|"`, and the
exact-equality match type otherwise. -/
theorem matchType_regex_iff_pipe (v : String) :
    (matchType v = MatchType.matchRegexp ↔ '|' ∈ v.data) ∧
    (matchType v = MatchType.matchEqual ↔ '|' ∉ v.data) := by
  have hc := containsChar_iff_mem v '|'
  unfold matchType
  cases hb : containsChar v '|' with
  | false =>
    rw [hb] at hc
    simp only [Bool.false_eq_true, false_iff] at hc
    simp [hc]
  | true =>
    rw [hb] at hc
    simp only [true_iff] at hc
    simp [hc]

/-- C6: both converters copy cluster, namespace, name, expression, message,
duration, inhibit labels, and enabled flag verbatim, and map the
severity-level list and the receiver-binding list one-to-one preserving
input order (same length, i-th output derived from the i-th input). -/
theorem convert_copies_fields_and_maps_lists (cluster : String)
    (m : MonitorAlertRule) (l : LoggingAlertRule) :
    (convertMonitorAlertRule cluster m).Cluster = cluster ∧
    (convertMonitorAlertRule cluster m).Namespace = m.Namespace ∧
    (convertMonitorAlertRule cluster m).Name = m.Name ∧
    (convertMonitorAlertRule cluster m).Expr = m.Expr ∧
    (convertMonitorAlertRule cluster m).Message = m.Message ∧
    (convertMonitorAlertRule cluster m).For = m.For ∧
    (convertMonitorAlertRule cluster m).InhibitLabels = m.InhibitLabels ∧
    (convertMonitorAlertRule cluster m).IsOpen = m.IsOpen ∧
    (convertMonitorAlertRule cluster m).AlertLevels.length = m.AlertLevels.length ∧
    (∀ i : Nat, (convertMonitorAlertRule cluster m).AlertLevels[i]? =
      (m.AlertLevels[i]?).map convertLevel) ∧
    (convertMonitorAlertRule cluster m).Receivers.length = m.Receivers.length ∧
    (∀ i : Nat, (convertMonitorAlertRule cluster m).Receivers[i]? =
      (m.Receivers[i]?).map convertReceiver) ∧
    (convertLoggingAlertRule cluster l).Cluster = cluster ∧
    (convertLoggingAlertRule cluster l).Namespace = l.Namespace ∧
    (convertLoggingAlertRule cluster l).Name = l.Name ∧
    (convertLoggingAlertRule cluster l).Expr = l.Expr ∧
    (convertLoggingAlertRule cluster l).Message = l.Message ∧
    (convertLoggingAlertRule cluster l).For = l.For ∧
    (convertLoggingAlertRule cluster l).InhibitLabels = l.InhibitLabels ∧
    (convertLoggingAlertRule cluster l).IsOpen = l.IsOpen ∧
    (convertLoggingAlertRule cluster l).AlertLevels.length = l.AlertLevels.length ∧
    (∀ i : Nat, (convertLoggingAlertRule cluster l).AlertLevels[i]? =
      (l.AlertLevels[i]?).map convertLevel) ∧
    (convertLoggingAlertRule cluster l).Receivers.length = l.Receivers.length ∧
    (∀ i : Nat, (convertLoggingAlertRule cluster l).Receivers[i]? =
      (l.Receivers[i]?).map convertReceiver) := by
  refine ⟨rfl, rfl, rfl, rfl, rfl, rfl, rfl, rfl, ?_, ?_, ?_, ?_,
          rfl, rfl, rfl, rfl, rfl, rfl, rfl, rfl, ?_, ?_, ?_, ?_⟩ <;>
    first
      | exact List.length_map _ _
      | intro i; exact List.getElem?_map ..

/-- C7: every converted rule carries at most one of the metric-query and
log-query generators: monitor conversion never sets the log-query
generator, logging conversion never sets the metric-query generator, and
each is set exactly when the corresponding legacy descriptor is present. -/
theorem convert_at_most_one_generator (cluster : String)
    (m : MonitorAlertRule) (l : LoggingAlertRule) :
    (convertMonitorAlertRule cluster m).LogqlGenerator = none ∧
    (convertMonitorAlertRule cluster m).PromqlGenerator.isSome = m.PromqlGenerator.isSome ∧
    (convertLoggingAlertRule cluster l).PromqlGenerator = none ∧
    (convertLoggingAlertRule cluster l).LogqlGenerator.isSome = l.LogqlGenerator.isSome ∧
    ¬((convertMonitorAlertRule cluster m).PromqlGenerator.isSome = true ∧
      (convertMonitorAlertRule cluster m).LogqlGenerator.isSome = true) ∧
    ¬((convertLoggingAlertRule cluster l).PromqlGenerator.isSome = true ∧
      (convertLoggingAlertRule cluster l).LogqlGenerator.isSome = true) := by
  refine ⟨rfl, ?_, rfl, ?_, ?_, ?_⟩
  · simp [convertMonitorAlertRule]
  · simp [convertLoggingAlertRule]
  · rintro ⟨-, h⟩
    simp [convertMonitorAlertRule] at h
  · rintro ⟨h, -⟩
    simp [convertLoggingAlertRule] at h

/-! ### Phase A merge lemmas -/

theorem assocLookup_append {α β : Type} [DecidableEq α] (m₁ m₂ : List (α × β)) (k : α) :
    assocLookup (m₁ ++ m₂) k =
      match assocLookup m₁ k with
      | some w => some w
      | none => assocLookup m₂ k := by
  induction m₁ with
  | nil => rfl
  | cons p rest ih =>
    obtain ⟨k', v⟩ := p
    by_cases h : k' = k
    · simp [assocLookup, h]
    · simpa [assocLookup, h] using ih

theorem mergeAlertNames_cons (m : List (String × String)) (v : String) (vs : List String) :
    mergeAlertNames m (v :: vs) =
      mergeAlertNames (if (assocLookup m v).isSome then m else m ++ [(v, "")]) vs := rfl

/-- The merge step never shadows an existing entry: lookups that succeed in
the input map are unchanged by merging. -/
theorem mergeAlertNames_preserves (vs : List String) (m : List (String × String)) (k : String)
    (h : (assocLookup m k).isSome) :
    assocLookup (mergeAlertNames m vs) k = assocLookup m k := by
  induction vs generalizing m with
  | nil => rfl
  | cons v rest ih =>
    rw [mergeAlertNames_cons]
    by_cases hv : (assocLookup m v).isSome
    · rw [if_pos hv]
      exact ih m h
    · rw [if_neg hv]
      have hstep : assocLookup (m ++ [(v, "")]) k = assocLookup m k := by
        rw [assocLookup_append]
        obtain ⟨w, hw⟩ := Option.isSome_iff_exists.mp h
        rw [hw]
      rw [ih (m ++ [(v, "")]) (by rw [hstep]; exact h), hstep]

/-- After merging, every merged name has an entry. -/
theorem mergeAlertNames_mem_isSome (vs : List String) (m : List (String × String)) (v : String)
    (h : v ∈ vs) : (assocLookup (mergeAlertNames m vs) v).isSome := by
  induction vs generalizing m with
  | nil => cases h
  | cons v' rest ih =>
    rw [mergeAlertNames_cons]
    rcases List.mem_cons.mp h with heq | hmem
    · subst heq
      by_cases hv : (assocLookup m v).isSome
      · rw [if_pos hv, mergeAlertNames_preserves rest m v hv]
        exact hv
      · rw [if_neg hv]
        have hnone : assocLookup m v = none := Option.not_isSome_iff_eq_none.mp hv
        have hstep : assocLookup (m ++ [(v, "")]) v = some "" := by
          rw [assocLookup_append, hnone]
          simp [assocLookup]
        rw [mergeAlertNames_preserves rest _ v (by rw [hstep]; rfl), hstep]
        rfl
    · by_cases hv : (assocLookup m v').isSome
      · rw [if_pos hv]; exact ih m hmem
      · rw [if_neg hv]; exact ih (m ++ [(v', "")]) hmem

/-- Merging a batch of names all of which already have entries is a no-op. -/
theorem mergeAlertNames_noop (vs : List String) (m : List (String × String))
    (h : ∀ v ∈ vs, (assocLookup m v).isSome) : mergeAlertNames m vs = m := by
  induction vs with
  | nil => rfl
  | cons v rest ih =>
    rw [mergeAlertNames_cons, if_pos (h v (List.mem_cons_self v rest))]
    exact ih fun w hw => h w (List.mem_cons_of_mem v hw)

/-- Any entry of the merged map is either an entry of the input map or the
empty value inserted for a discovered name. -/
theorem mergeAlertNames_lookup_eq_or (vs : List String) (m : List (String × String)) (k : String) :
    assocLookup (mergeAlertNames m vs) k = assocLookup m k ∨
    assocLookup (mergeAlertNames m vs) k = some "" := by
  induction vs generalizing m with
  | nil => exact Or.inl rfl
  | cons v rest ih =>
    rw [mergeAlertNames_cons]
    by_cases hv : (assocLookup m v).isSome
    · rw [if_pos hv]; exact ih m
    · rw [if_neg hv]
      rcases ih (m ++ [(v, "")]) with h | h
      · by_cases hk : v = k
        · subst hk
          rcases hm : assocLookup m v with _ | w
          · right
            rw [h, assocLookup_append, hm]
            simp [assocLookup]
          · left
            rw [h, assocLookup_append, hm]
        · left
          rw [h, assocLookup_append]
          rcases hm : assocLookup m k with _ | w
          · simp [assocLookup, hk]
          · rfl
      · exact Or.inr h

/-- Empty values merged for discovered names absent from the input map. -/
theorem mergeAlertNames_new (vs : List String) (m : List (String × String)) (k : String)
    (hnone : assocLookup m k = none) (hmem : k ∈ vs) :
    assocLookup (mergeAlertNames m vs) k = some "" := by
  rcases mergeAlertNames_lookup_eq_or vs m k with h | h
  · have := mergeAlertNames_mem_isSome vs m k hmem
    rw [h, hnone] at this
    cases this
  · exact h

/-- C4: Phase A inserts each discovered non-canonical name with an empty
value only when absent, never overwrites an existing entry, and running the
merge twice over the same persisted rules yields an identical override map
(idempotent discovery). -/
theorem updateAlertNameMapInFile_merge_props (m : List (String × String))
    (names : List String) :
    (∀ k, (assocLookup m k).isSome →
      assocLookup (updateAlertNameMapInFile m names) k = assocLookup m k) ∧
    (∀ k, assocLookup m k = none → k ∈ names.filter isNonCanonicalName →
      assocLookup (updateAlertNameMapInFile m names) k = some "") ∧
    updateAlertNameMapInFile (updateAlertNameMapInFile m names) names =
      updateAlertNameMapInFile m names := by
  refine ⟨?_, ?_, ?_⟩
  · intro k h
    exact mergeAlertNames_preserves _ m k h
  · intro k hnone hmem
    exact mergeAlertNames_new _ m k hnone hmem
  · exact mergeAlertNames_noop _ _
      (fun v hv => mergeAlertNames_mem_isSome _ m v hv)

/-- C4 witness: at the concrete map `[("a", "x")]` and rule names
`["b c", "ok-name"]`, the operator entry for `"a"` is preserved, the
discovered name `"b c"` (it contains a space) is inserted empty, and the
merge is idempotent. -/
theorem updateAlertNameMapInFile_merge_props_witness :
    assocLookup (updateAlertNameMapInFile [("a", "x")] ["b c", "ok-name"]) "a" =
      assocLookup [("a", "x")] "a" ∧
    assocLookup (updateAlertNameMapInFile [("a", "x")] ["b c", "ok-name"]) "b c" = some "" ∧
    updateAlertNameMapInFile (updateAlertNameMapInFile [("a", "x")] ["b c", "ok-name"])
        ["b c", "ok-name"] =
      updateAlertNameMapInFile [("a", "x")] ["b c", "ok-name"] :=
  ⟨(updateAlertNameMapInFile_merge_props [("a", "x")] ["b c", "ok-name"]).1 "a" (by decide),
   (updateAlertNameMapInFile_merge_props [("a", "x")] ["b c", "ok-name"]).2.1 "b c"
     (by decide) (by decide),
   (updateAlertNameMapInFile_merge_props [("a", "x")] ["b c", "ok-name"]).2.2⟩

/-! ### Phase B lemmas -/

/-- The renamed rule's name is exactly the computed new name (whether or
not the update branch ran). -/
theorem applyRename_name (alertNameMap : List (String × String)) (kebab : String → String)
    (v : AlertRule) :
    (applyRename alertNameMap kebab v).Name = computeNewName alertNameMap kebab v.Name := by
  unfold applyRename
  by_cases h : v.Name ≠ computeNewName alertNameMap kebab v.Name
  · rw [if_pos h]
  · rw [if_neg h]
    exact Classical.not_not.mp h

theorem phaseBLoop_cons (alertNameMap : List (String × String)) (kebab : String → String)
    (envinfo : List (String × EnvInfo)) (v : AlertRule) (rest : List AlertRule) :
    phaseBLoop alertNameMap kebab envinfo (v :: rest) =
      if isValidAlertRuleName (computeNewName alertNameMap kebab v.Name) then
        (applyRename alertNameMap kebab v :: (phaseBLoop alertNameMap kebab envinfo rest).1,
         auditRecord alertNameMap kebab envinfo v ::
           (phaseBLoop alertNameMap kebab envinfo rest).2.1,
         (phaseBLoop alertNameMap kebab envinfo rest).2.2)
      else (v :: rest, [], some (computeNewName alertNameMap kebab v.Name)) := rfl

/-- A run of the loop that did not abort renamed every rule and recorded
every rule, in order. -/
theorem phaseBLoop_of_err_none (alertNameMap : List (String × String))
    (kebab : String → String) (envinfo : List (String × EnvInfo)) (rules : List AlertRule)
    (h : (phaseBLoop alertNameMap kebab envinfo rules).2.2 = none) :
    phaseBLoop alertNameMap kebab envinfo rules =
      (rules.map (applyRename alertNameMap kebab),
       rules.map (auditRecord alertNameMap kebab envinfo), none) := by
  induction rules with
  | nil => rfl
  | cons v rest ih =>
    rw [phaseBLoop_cons] at h ⊢
    by_cases hv : isValidAlertRuleName (computeNewName alertNameMap kebab v.Name) = true
    · rw [if_pos hv] at h ⊢
      rw [ih h]
      simp [List.map]
    · rw [if_neg hv] at h
      cases h

/-- A run of the loop that did not abort found every computed name valid. -/
theorem phaseBLoop_err_none_all_valid (alertNameMap : List (String × String))
    (kebab : String → String) (envinfo : List (String × EnvInfo)) (rules : List AlertRule)
    (h : (phaseBLoop alertNameMap kebab envinfo rules).2.2 = none) :
    ∀ v ∈ rules, isValidAlertRuleName (computeNewName alertNameMap kebab v.Name) = true := by
  induction rules with
  | nil => intro v hv; cases hv
  | cons v rest ih =>
    rw [phaseBLoop_cons] at h
    by_cases hv : isValidAlertRuleName (computeNewName alertNameMap kebab v.Name) = true
    · rw [if_pos hv] at h
      intro w hw
      rcases List.mem_cons.mp hw with heq | hmem
      · rw [heq]; exact hv
      · exact ih h w hmem
    · rw [if_neg hv] at h
      cases h

/-- The error returned by an aborted loop is the (invalid) computed name it
stopped on. -/
theorem phaseBLoop_err_invalid (alertNameMap : List (String × String))
    (kebab : String → String) (envinfo : List (String × EnvInfo)) (rules : List AlertRule)
    (e : String) (h : (phaseBLoop alertNameMap kebab envinfo rules).2.2 = some e) :
    isValidAlertRuleName e = false := by
  induction rules with
  | nil => cases h
  | cons v rest ih =>
    rw [phaseBLoop_cons] at h
    by_cases hv : isValidAlertRuleName (computeNewName alertNameMap kebab v.Name) = true
    · rw [if_pos hv] at h
      exact ih h
    · rw [if_neg hv] at h
      cases h
      exact Bool.not_eq_true _ ▸ Bool.of_not_eq_true hv

/-- Indexed correspondence of input and output rules: an output rule is
either its input untouched, or its input renamed after a successful
validation of the computed name. -/
theorem phaseBLoop_rules_index (alertNameMap : List (String × String))
    (kebab : String → String) (envinfo : List (String × EnvInfo)) (rules : List AlertRule) :
    ∀ (i : Nat) (r r' : AlertRule), rules[i]? = some r →
      (phaseBLoop alertNameMap kebab envinfo rules).1[i]? = some r' →
      r' = r ∨ (r' = applyRename alertNameMap kebab r ∧
        isValidAlertRuleName (computeNewName alertNameMap kebab r.Name) = true) := by
  induction rules with
  | nil => intro i r r' hr _; rw [List.getElem?_nil] at hr; cases hr
  | cons v rest ih =>
    intro i r r' hr hr'
    rw [phaseBLoop_cons] at hr'
    by_cases hv : isValidAlertRuleName (computeNewName alertNameMap kebab v.Name) = true
    · rw [if_pos hv] at hr'
      cases i with
      | zero =>
        rw [List.getElem?_cons_zero] at hr hr'
        cases hr; cases hr'
        exact Or.inr ⟨rfl, hv⟩
      | succ j =>
        rw [List.getElem?_cons_succ] at hr hr'
        exact ih j r r' hr hr'
    · rw [if_neg hv] at hr'
      rw [hr] at hr'
      cases hr'
      exact Or.inl rfl

/-- Unfolding of `updateAlertRuleNameInDB` on an aborting run: the error is
returned and the audit file is left untouched. -/
theorem updateAlertRuleNameInDB_of_err (alertNameMap : List (String × String))
    (kebab : String → String) (alertrules : List AlertRule)
    (envinfo : List (String × EnvInfo)) (oldAuditFile : List Nat) (e : String)
    (h : (phaseBLoop alertNameMap kebab envinfo alertrules).2.2 = some e) :
    updateAlertRuleNameInDB alertNameMap kebab alertrules envinfo oldAuditFile =
      { rules := (phaseBLoop alertNameMap kebab envinfo alertrules).1
        records := (phaseBLoop alertNameMap kebab envinfo alertrules).2.1
        auditFile := oldAuditFile
        err := some e } := by
  simp only [updateAlertRuleNameInDB]
  rw [h]

/-- Unfolding of `updateAlertRuleNameInDB` on a successful run: BOM, header
and records are written from offset 0 over the old content. -/
theorem updateAlertRuleNameInDB_of_ok (alertNameMap : List (String × String))
    (kebab : String → String) (alertrules : List AlertRule)
    (envinfo : List (String × EnvInfo)) (oldAuditFile : List Nat)
    (h : (phaseBLoop alertNameMap kebab envinfo alertrules).2.2 = none) :
    updateAlertRuleNameInDB alertNameMap kebab alertrules envinfo oldAuditFile =
      { rules := (phaseBLoop alertNameMap kebab envinfo alertrules).1
        records := (phaseBLoop alertNameMap kebab envinfo alertrules).2.1
        auditFile := overwriteFromStart oldAuditFile
          (auditBytes (phaseBLoop alertNameMap kebab envinfo alertrules).2.1)
        err := none } := by
  simp only [updateAlertRuleNameInDB, auditBytes]
  rw [h]

/-- The output rule list is the loop's rule list, abort or not. -/
theorem updateAlertRuleNameInDB_rules (alertNameMap : List (String × String))
    (kebab : String → String) (alertrules : List AlertRule)
    (envinfo : List (String × EnvInfo)) (oldAuditFile : List Nat) :
    (updateAlertRuleNameInDB alertNameMap kebab alertrules envinfo oldAuditFile).rules =
      (phaseBLoop alertNameMap kebab envinfo alertrules).1 := by
  rcases h : (phaseBLoop alertNameMap kebab envinfo alertrules).2.2 with _ | e
  · rw [updateAlertRuleNameInDB_of_ok alertNameMap kebab alertrules envinfo oldAuditFile h]
  · rw [updateAlertRuleNameInDB_of_err alertNameMap kebab alertrules envinfo oldAuditFile e h]

/-- The returned error is the loop's error, abort or not. -/
theorem updateAlertRuleNameInDB_err (alertNameMap : List (String × String))
    (kebab : String → String) (alertrules : List AlertRule)
    (envinfo : List (String × EnvInfo)) (oldAuditFile : List Nat) :
    (updateAlertRuleNameInDB alertNameMap kebab alertrules envinfo oldAuditFile).err =
      (phaseBLoop alertNameMap kebab envinfo alertrules).2.2 := by
  rcases h : (phaseBLoop alertNameMap kebab envinfo alertrules).2.2 with _ | e
  · rw [updateAlertRuleNameInDB_of_ok alertNameMap kebab alertrules envinfo oldAuditFile h]
  · rw [updateAlertRuleNameInDB_of_err alertNameMap kebab alertrules envinfo oldAuditFile e h]

/-! ### Phase B claim theorems -/

/-- A persisted rule named `Foo Bar` (no override entry for it below). -/
def fooBarRule : AlertRule := { Name := "Foo Bar", Cluster := "c1", Namespace := "n1" }

/-- A persisted rule whose name has an operator override below. -/
def overriddenRule : AlertRule := { Name := "x", Cluster := "c1", Namespace := "n1" }

/-- A persisted rule named `a` (already canonical). -/
def plainRuleA : AlertRule := { Name := "a", Cluster := "c1", Namespace := "n1" }

/-- A persisted rule named `b` (already canonical). -/
def plainRuleB : AlertRule := { Name := "b", Cluster := "c1", Namespace := "n1" }

/-- The environment-table row used by the concrete runs. -/
def envC1N1 : EnvInfo :=
  { ClusterName := "c1", Namespace := "n1", TenantName := "t1",
    ProjectName := "p1", EnvironmentName := "e1" }

/-- C1 counterexample: with the override map `[("My Rule", "")]` — an entry
present but empty — the code uses the empty override value as the new name,
not the slugification `"my-rule"` the claim requires for empty entries
(migrate-alertrule.go:132 tests key presence, not non-emptiness). -/
theorem computeNewName_empty_override_counterexample :
    computeNewName [("My Rule", "")] kebabCase "My Rule" = "" ∧
    kebabCase "My Rule" = "my-rule" ∧
    computeNewName [("My Rule", "")] kebabCase "My Rule" ≠ kebabCase "My Rule" := by
  decide

/-- C1 (amended): in a Phase B run that completes, every persisted rule's
new name is the override-map entry for its old name whenever an entry is
PRESENT (even when it is empty), and the slugification of the old name only
when no entry exists; in particular a rule with no override entry is
renamed to its slug. -/
theorem phaseB_newname_override_if_present_else_slug
    (alertNameMap : List (String × String)) (kebab : String → String)
    (alertrules : List AlertRule) (envinfo : List (String × EnvInfo))
    (oldAuditFile : List Nat)
    (hok : (updateAlertRuleNameInDB alertNameMap kebab alertrules envinfo oldAuditFile).err
      = none) :
    (updateAlertRuleNameInDB alertNameMap kebab alertrules envinfo oldAuditFile).rules =
      alertrules.map (applyRename alertNameMap kebab) ∧
    (∀ v : AlertRule, (applyRename alertNameMap kebab v).Name =
      match assocLookup alertNameMap v.Name with
      | some s => s
      | none => kebab v.Name) := by
  rw [updateAlertRuleNameInDB_err] at hok
  constructor
  · rw [updateAlertRuleNameInDB_rules,
        phaseBLoop_of_err_none alertNameMap kebab envinfo alertrules hok]
  · intro v
    rw [applyRename_name]
    rfl

/-- C1 witness: with no override entry for `Foo Bar`, a successful Phase B
run renames it via slugification to `foo-bar`. -/
theorem phaseB_newname_override_witness :
    (updateAlertRuleNameInDB [] kebabCase [fooBarRule] [] []).rules =
      [fooBarRule].map (applyRename [] kebabCase) ∧
    (applyRename [] kebabCase fooBarRule).Name = "foo-bar" := by
  have h := phaseB_newname_override_if_present_else_slug [] kebabCase [fooBarRule] [] []
    (by decide)
  refine ⟨h.1, ?_⟩
  rw [h.2 fooBarRule]
  decide

/-- C2: every computed new name is validated before that rule is persisted:
a persisted rule is either untouched or renamed to a name whose validation
succeeded; a validation failure makes the whole phase return the invalid
name as its error, which therefore never reaches the store; and a phase
that did not abort validated every computed name. -/
theorem phaseB_validates_before_persisting (alertNameMap : List (String × String))
    (kebab : String → String) (alertrules : List AlertRule)
    (envinfo : List (String × EnvInfo)) (oldAuditFile : List Nat) :
    (∀ (i : Nat) (r r' : AlertRule), alertrules[i]? = some r →
      (updateAlertRuleNameInDB alertNameMap kebab alertrules envinfo oldAuditFile).rules[i]?
        = some r' →
      r' = r ∨ (r' = applyRename alertNameMap kebab r ∧
        isValidAlertRuleName r'.Name = true)) ∧
    (∀ e : String,
      (updateAlertRuleNameInDB alertNameMap kebab alertrules envinfo oldAuditFile).err
        = some e → isValidAlertRuleName e = false) ∧
    ((updateAlertRuleNameInDB alertNameMap kebab alertrules envinfo oldAuditFile).err
        = none →
      ∀ v ∈ alertrules,
        isValidAlertRuleName (computeNewName alertNameMap kebab v.Name) = true) := by
  refine ⟨?_, ?_, ?_⟩
  · intro i r r' hr hr'
    rw [updateAlertRuleNameInDB_rules] at hr'
    rcases phaseBLoop_rules_index alertNameMap kebab envinfo alertrules i r r' hr hr' with
      h | ⟨heq, hv⟩
    · exact Or.inl h
    · refine Or.inr ⟨heq, ?_⟩
      rw [heq, applyRename_name]
      exact hv
  · intro e he
    rw [updateAlertRuleNameInDB_err] at he
    exact phaseBLoop_err_invalid alertNameMap kebab envinfo alertrules e he
  · intro hok
    rw [updateAlertRuleNameInDB_err] at hok
    exact phaseBLoop_err_none_all_valid alertNameMap kebab envinfo alertrules hok

/-- C2 witness: with the override entry `("x", "Bad Name")`, the concrete
run aborts with the invalid name `Bad Name`, which fails the grammar. -/
theorem phaseB_validates_before_persisting_witness :
    isValidAlertRuleName "Bad Name" = false ∧
    (updateAlertRuleNameInDB [("x", "Bad Name")] kebabCase [overriddenRule] [] []).err =
      some "Bad Name" :=
  ⟨(phaseB_validates_before_persisting [("x", "Bad Name")] kebabCase [overriddenRule] [] []).2.1
      "Bad Name" (by decide),
   by decide⟩

/-- C3 counterexample: the audit file is NOT written by truncate-and-rewrite
(the source opens it with `os.O_CREATE|os.O_RDWR`, without `os.O_TRUNC`):
after a successful run over a pre-existing 200-byte file, the file content
is not the freshly written BOM + header + records — the stale tail
survives. -/
theorem phaseB_audit_not_truncated_counterexample :
    (updateAlertRuleNameInDB [] kebabCase [] [] (List.replicate 200 66)).err = none ∧
    (updateAlertRuleNameInDB [] kebabCase [] [] (List.replicate 200 66)).auditFile ≠
      auditBytes (updateAlertRuleNameInDB [] kebabCase [] [] (List.replicate 200 66)).records
    := by decide

/-- C3 (amended): a successful Phase B run writes the audit bytes — the
byte-order marker, then the header row, then exactly one record per
persisted rule including the unchanged ones, each carrying old name, new
name and the location metadata keyed by `cluster/namespace` — starting at
offset 0 of the audit file WITHOUT truncating it, so bytes of a longer
pre-existing file beyond the written length remain. -/
theorem phaseB_audit_layout (alertNameMap : List (String × String))
    (kebab : String → String) (alertrules : List AlertRule)
    (envinfo : List (String × EnvInfo)) (oldAuditFile : List Nat)
    (hok : (updateAlertRuleNameInDB alertNameMap kebab alertrules envinfo oldAuditFile).err
      = none) :
    (updateAlertRuleNameInDB alertNameMap kebab alertrules envinfo oldAuditFile).records =
      alertrules.map (auditRecord alertNameMap kebab envinfo) ∧
    (updateAlertRuleNameInDB alertNameMap kebab alertrules envinfo oldAuditFile).auditFile =
      overwriteFromStart oldAuditFile
        (auditBytes
          (updateAlertRuleNameInDB alertNameMap kebab alertrules envinfo oldAuditFile).records)
    := by
  rw [updateAlertRuleNameInDB_err] at hok
  rw [updateAlertRuleNameInDB_of_ok alertNameMap kebab alertrules envinfo oldAuditFile hok,
      phaseBLoop_of_err_none alertNameMap kebab envinfo alertrules hok]
  exact ⟨rfl, rfl⟩

/-- C3 witness: the concrete successful run over one rule (`Foo Bar`,
renamed, resolved through the environment table) produces exactly one
record with the resolved metadata and writes BOM + header + record over the
(empty) old file. -/
theorem phaseB_audit_layout_witness :
    (updateAlertRuleNameInDB [] kebabCase [fooBarRule] [("c1/n1", envC1N1)] []).records =
      [["Foo Bar", "foo-bar", "c1", "n1", "t1", "p1", "e1"]] ∧
    (updateAlertRuleNameInDB [] kebabCase [fooBarRule] [("c1/n1", envC1N1)] []).auditFile =
      overwriteFromStart []
        (auditBytes [["Foo Bar", "foo-bar", "c1", "n1", "t1", "p1", "e1"]]) := by
  have h := phaseB_audit_layout [] kebabCase [fooBarRule] [("c1/n1", envC1N1)] [] (by decide)
  constructor
  · rw [h.1]; decide
  · rw [h.2, h.1]; decide

/-- C9: if validation fails on some rule, every earlier rule's rename has
already been persisted, the failing rule and all later rules are untouched,
the invalid computed name is returned as the error, and no audit output is
produced — the audit file still holds its previous bytes. -/
theorem phaseB_abort_after_prior_updates (alertNameMap : List (String × String))
    (kebab : String → String) (envinfo : List (String × EnvInfo)) (oldAuditFile : List Nat)
    (pre : List AlertRule) (v : AlertRule) (post : List AlertRule)
    (hpre : ∀ r ∈ pre, isValidAlertRuleName (computeNewName alertNameMap kebab r.Name) = true)
    (hv : isValidAlertRuleName (computeNewName alertNameMap kebab v.Name) = false) :
    (updateAlertRuleNameInDB alertNameMap kebab (pre ++ v :: post) envinfo oldAuditFile).err =
      some (computeNewName alertNameMap kebab v.Name) ∧
    (updateAlertRuleNameInDB alertNameMap kebab (pre ++ v :: post) envinfo oldAuditFile).rules =
      pre.map (applyRename alertNameMap kebab) ++ v :: post ∧
    (updateAlertRuleNameInDB alertNameMap kebab (pre ++ v :: post) envinfo
      oldAuditFile).auditFile = oldAuditFile := by
  have hloop : phaseBLoop alertNameMap kebab envinfo (pre ++ v :: post) =
      (pre.map (applyRename alertNameMap kebab) ++ v :: post,
       pre.map (auditRecord alertNameMap kebab envinfo),
       some (computeNewName alertNameMap kebab v.Name)) := by
    induction pre with
    | nil =>
      simp only [List.nil_append, List.map_nil]
      rw [phaseBLoop_cons, if_neg (by simp [hv])]
    | cons p pre' ih =>
      simp only [List.cons_append, List.map_cons]
      rw [phaseBLoop_cons,
          if_pos (hpre p (List.mem_cons_self p pre')),
          ih (fun r hr => hpre r (List.mem_cons_of_mem p hr))]
  have herr : (phaseBLoop alertNameMap kebab envinfo (pre ++ v :: post)).2.2 =
      some (computeNewName alertNameMap kebab v.Name) := by rw [hloop]
  rw [updateAlertRuleNameInDB_of_err alertNameMap kebab (pre ++ v :: post) envinfo
      oldAuditFile (computeNewName alertNameMap kebab v.Name) herr, hloop]
  exact ⟨rfl, rfl, rfl⟩

/-- C9 witness: with the override entry `("x", "Bad Name")` and the rules
`a`, `x`, `b` in order, the run aborts with `Bad Name`; rule `a`'s rename
step has run, rules `x` and `b` are untouched, and the audit file keeps its
previous bytes `[1, 2, 3]`. -/
theorem phaseB_abort_after_prior_updates_witness :
    (updateAlertRuleNameInDB [("x", "Bad Name")] kebabCase
      ([plainRuleA] ++ overriddenRule :: [plainRuleB]) [] [1, 2, 3]).err =
      some (computeNewName [("x", "Bad Name")] kebabCase overriddenRule.Name) ∧
    (updateAlertRuleNameInDB [("x", "Bad Name")] kebabCase
      ([plainRuleA] ++ overriddenRule :: [plainRuleB]) [] [1, 2, 3]).rules =
      [plainRuleA].map (applyRename [("x", "Bad Name")] kebabCase) ++
        overriddenRule :: [plainRuleB] ∧
    (updateAlertRuleNameInDB [("x", "Bad Name")] kebabCase
      ([plainRuleA] ++ overriddenRule :: [plainRuleB]) [] [1, 2, 3]).auditFile = [1, 2, 3] :=
  phaseB_abort_after_prior_updates [("x", "Bad Name")] kebabCase [] [1, 2, 3]
    [plainRuleA] overriddenRule [plainRuleB] (by decide) (by decide)

/-- A concrete rule owned by cluster `c1`. -/
def ruleOnC1 : AlertRule := { Name := "r1", Cluster := "c1" }

/-- A concrete rule owned by cluster `c2`. -/
def ruleOnC2 : AlertRule := { Name := "r2", Cluster := "c2" }

/-- A concrete rule owned by cluster `c3`. -/
def ruleOnC3 : AlertRule := { Name := "r3", Cluster := "c3" }

/-- A client resolver that fails exactly for cluster `c2`. -/
def resolverNoC2 : String → Option Unit :=
  fun c => if c = "c2" then none else some ()

/-- C8: the re-sync driver processes every persisted rule in order; a rule
whose cluster lookup fails yields a logged `clientError` and the loop
continues, so the output has one action per rule; in particular, of three
rules where the second one's cluster lookup fails, the first and third are
still synchronized. -/
theorem syncAlertRules_continues_past_client_errors {κ : Type}
    (clientOf : String → Option κ) (syncOk : κ → AlertRule → Bool)
    (alertrules : List AlertRule) :
    (syncAlertRules clientOf syncOk alertrules).length = alertrules.length ∧
    (∀ i : Nat, (syncAlertRules clientOf syncOk alertrules)[i]? =
      (alertrules[i]?).map (syncStep clientOf syncOk)) ∧
    syncAlertRules resolverNoC2 (fun _ _ => true) [ruleOnC1, ruleOnC2, ruleOnC3] =
      [SyncAction.syncSuccess, SyncAction.clientError, SyncAction.syncSuccess] := by
  refine ⟨List.length_map _ _, fun i => List.getElem?_map .., ?_⟩
  decide

end KubegemsMigration

namespace KubegemsDeepCopy

/-! ### Deep-copy lemmas -/

theorem copySliceAlloc_elems {α : Type} (s : GoSlice α) (τ : Nat) :
    sliceElems (copySliceAlloc s τ).1 = sliceElems s := by
  rcases s with _ | ⟨i, xs⟩ <;> rfl

theorem copySliceAlloc_snd_ge {α : Type} (s : GoSlice α) (τ : Nat) :
    τ ≤ (copySliceAlloc s τ).2 := by
  rcases s with _ | ⟨i, xs⟩
  · exact Nat.le_refl τ
  · exact Nat.le_succ τ

/-- A slice freshly copied at allocation counter `τ ≥ σ` is fresh with
respect to any original whose id is below `σ`. -/
theorem copySliceAlloc_fresh {α : Type} [DecidableEq α] (s : GoSlice α) (σ τ : Nat)
    (hστ : σ ≤ τ) (hbound : ∀ i, sliceId s = some i → i < σ) :
    freshSliceWrt s (copySliceAlloc s τ).1 σ = true := by
  rcases s with _ | ⟨i, xs⟩
  · simp [freshSliceWrt, copySliceAlloc, sliceElems, sliceId]
  · have hi : i < σ := hbound i rfl
    simp [freshSliceWrt, copySliceAlloc, sliceElems, sliceId]
    omega

theorem idsBoundPlugin_dep (p : Plugin) (σ : Nat) (hb : idsBoundPlugin p σ = true) :
    ∀ i, sliceId p.Spec.Dependencies = some i → i < σ := by
  intro i hi
  unfold idsBoundPlugin at hb
  rw [hi] at hb
  simp only [Bool.and_eq_true, decide_eq_true_eq] at hb
  exact hb.1.1

theorem idsBoundPlugin_vf (p : Plugin) (σ : Nat) (hb : idsBoundPlugin p σ = true) :
    ∀ i, sliceId p.Spec.ValuesFrom = some i → i < σ := by
  intro i hi
  unfold idsBoundPlugin at hb
  rw [hi] at hb
  simp only [Bool.and_eq_true, decide_eq_true_eq] at hb
  exact hb.1.2

theorem idsBoundPlugin_res (p : Plugin) (σ : Nat) (hb : idsBoundPlugin p σ = true) :
    ∀ i, sliceId p.Status.Resources = some i → i < σ := by
  intro i hi
  unfold idsBoundPlugin at hb
  rw [hi] at hb
  simp only [Bool.and_eq_true, decide_eq_true_eq] at hb
  exact hb.2

/-- C10: `Plugin.DeepCopy` maps nil to nil; on a non-nil plugin it returns a
non-nil plugin, produced by `DeepCopyInto`, that is structurally
(field-for-field, element-for-element) equal to the original, every slice
field reachable from a `Plugin` (`Dependencies`, `ValuesFrom`, `Resources` —
a `Plugin` has no `Items` field, `Items` belongs to `PluginList`) being
freshly allocated with the same elements as the original's. -/
theorem Plugin_DeepCopy_props :
    (∀ σ : Nat, Plugin.DeepCopy none σ = (none, σ)) ∧
    (∀ (p : Plugin) (σ : Nat), Plugin.DeepCopy (some p) σ =
      (some (Plugin.DeepCopyInto p σ).1, (Plugin.DeepCopyInto p σ).2)) ∧
    (∀ (p : Plugin) (σ : Nat), idsBoundPlugin p σ = true →
      Plugin.contentEq p (Plugin.DeepCopyInto p σ).1 = true ∧
      freshCopy p (Plugin.DeepCopyInto p σ).1 σ = true) := by
  refine ⟨fun σ => rfl, fun p σ => rfl, fun p σ hb => ⟨?_, ?_⟩⟩
  · simp only [Plugin.DeepCopyInto, PluginSpec.DeepCopyInto, PluginStatus.DeepCopyInto,
      Plugin.contentEq]
    simp [copySliceAlloc_elems]
  · simp only [Plugin.DeepCopyInto, PluginSpec.DeepCopyInto, PluginStatus.DeepCopyInto,
      freshCopy]
    simp only [Bool.and_eq_true]
    refine ⟨⟨?_, ?_⟩, ?_⟩
    · exact copySliceAlloc_fresh _ σ σ (Nat.le_refl σ) (idsBoundPlugin_dep p σ hb)
    · exact copySliceAlloc_fresh _ σ _ (copySliceAlloc_snd_ge _ σ)
        (idsBoundPlugin_vf p σ hb)
    · exact copySliceAlloc_fresh _ σ _
        (Nat.le_trans (copySliceAlloc_snd_ge _ σ) (copySliceAlloc_snd_ge _ _))
        (idsBoundPlugin_res p σ hb)

/-- A concrete plugin with all three slices present, ids 0, 1, 2. -/
def examplePlugin : Plugin :=
  { TypeMeta := { Kind := "Plugin", APIVersion := "plugins.kubegems.io/v1beta1" }
    ObjectMeta := { Name := "monitoring", Namespace := "kubegems-installer" }
    Spec :=
    { Kind := "helm"
      URL := "https://charts.example"
      Version := "1.23.0"
      InstallNamespace := "observability"
      Dependencies := some (0, [{ Kind := "Plugin", Namespace := "kubegems", Name := "core" }])
      Values := { Raw := "replicas: 2" }
      ValuesFrom := some (1, [{ Kind := "ConfigMap", Name := "global", Optional := true }]) }
    Status :=
    { Phase := "Installed"
      Message := "ok"
      Version := "1.23.0"
      InstallNamespace := "observability"
      Values := { Raw := "replicas: 2" }
      CreationTimestamp := 10
      UpgradeTimestamp := 11
      Resources := some (2, [{ APIVersion := "apps/v1", Kind := "Deployment",
                               Namespace := "observability", Name := "grafana" }]) } }

/-- C10 witness: at the concrete `examplePlugin` (slice ids 0, 1, 2) and
allocation counter 5, the deep copy is content-equal with freshly allocated
slices. -/
theorem Plugin_DeepCopy_props_witness :
    idsBoundPlugin examplePlugin 5 = true ∧
    Plugin.contentEq examplePlugin (Plugin.DeepCopyInto examplePlugin 5).1 = true ∧
    freshCopy examplePlugin (Plugin.DeepCopyInto examplePlugin 5).1 5 = true :=
  ⟨by decide,
   (Plugin_DeepCopy_props.2.2 examplePlugin 5 (by decide)).1,
   (Plugin_DeepCopy_props.2.2 examplePlugin 5 (by decide)).2⟩

end KubegemsDeepCopy
